import Mathlib

/-
Shallow embedding of the Game Tracker repository (vanilla JS).

Source files embedded:
  * assets/js/utils/EnumOptionsTable.js   (GameStatus, GameNote, GameDifficulty)
  * assets/js/models/GameRow.js           (GameRow: constructor, setters, validate,
                                           updateProperty, toJSON, fromJSON)
  * assets/js/components/TableManager.js  (getTotalPages, sortGames, handleSort,
                                           render's page slice)
  * assets/js/domains/game_tracker.js     (controller state, handleDelete, addTab,
                                           updateGame callback, importJson)

Modelling conventions:
  * JS string values are Lean `String`s.  A raw-data field that is absent
    (`undefined`) is modelled as the empty string `""`: for every code path the
    repository takes on these fields (the `v || default` fallback and the
    truthiness shape checks), `undefined` and `""` behave identically.
  * `Date.now().toString()` (the generated id) is passed in explicitly as a
    `fresh : String` parameter; it is always a non-empty digit string.
  * `console.warn` / `console.error` / `alert` have no state effect and are
    dropped, except the import diagnostics, which `importJson` collects in its
    result so that the emitted warnings can be reasoned about.
  * JS `Array.prototype.sort` with a consistent comparator is a stable sort;
    every stable sorting algorithm yields the same output for such a
    comparator, so it is modelled by a stable insertion sort over the boolean
    relation "comparator(a,b) <= 0".
-/

namespace GameTracker

/-- Enumeration of allowed status values (EnumOptionsTable.js, `GameStatus`). -/
def GameStatus : List String :=
  ["Não Iniciado", "Jogando", "Pausado", "Zerado"]

/-- Enumeration of allowed note values "0".."10" (EnumOptionsTable.js,
`GameNote`, built as `Array.from(\x7blength: 11\x7d, (_, i) => i.toString())`). -/
def GameNote : List String :=
  (List.range 11).map (fun i => toString i)

/-- Enumeration of allowed difficulty values (EnumOptionsTable.js,
`GameDifficulty`). -/
def GameDifficulty : List String :=
  ["F", "E-", "E", "E+", "D-", "D", "D+", "C-", "C", "C+",
   "B-", "B", "B+", "A-", "A", "A+", "S", "S+"]

/-- JS `v || d` for string-valued (possibly absent) fields: the empty string
models both `""` and `undefined`, the only falsy values these fields take. -/
def strOr (v d : String) : String :=
  if v = "" then d else v

/-- Whitespace predicate of JS `String.prototype.trim` (restricted to the
usual ASCII whitespace, which is all the repository's data contains). -/
def isJsSpace (c : Char) : Bool :=
  c = ' ' || c = '\t' || c = '\n' || c = '\r'

/-- JS `String.prototype.trim`, written structurally over the character list
so that concrete instances evaluate. -/
def trimJS (s : String) : String :=
  ⟨((s.data.dropWhile isJsSpace).reverse.dropWhile isJsSpace).reverse⟩

/-- JS `String.prototype.trimStart` (leading whitespace only). -/
def trimLeftJS (s : String) : String :=
  ⟨s.data.dropWhile isJsSpace⟩

/-- JS `String.prototype.toLowerCase`, written structurally over the
character list (ASCII case mapping, which covers the repository's data). -/
def toLowerJS (s : String) : String :=
  ⟨s.data.map Char.toLower⟩

/-- Plain serialized game object, as stored in `tab.games` and produced by
`GameRow.toJSON` (fields `id, title, status, note, difficulty`). -/
structure RawGame where
  id : String
  title : String
  status : String
  note : String
  difficulty : String
deriving DecidableEq

/-- The GameRow model (GameRow.js).  The fields `status`, `note`,
`difficulty` model the private `_status`, `_note`, `_difficulty`. -/
structure GameRow where
  id : String
  title : String
  status : String
  note : String
  difficulty : String
deriving DecidableEq

/-- GameRow.js `isValidStatus`: membership in `GameStatus`. -/
def isValidStatus (status : String) : Bool :=
  GameStatus.contains status

/-- GameRow.js `isValidNote`: membership in `GameNote` (the `String(note)`
conversion is the identity on the string values modelled here). -/
def isValidNote (note : String) : Bool :=
  GameNote.contains note

/-- GameRow.js `isValidDifficulty`: membership in `GameDifficulty`. -/
def isValidDifficulty (difficulty : String) : Bool :=
  GameDifficulty.contains difficulty

/-- GameRow.js constructor (= static `fromJSON`): every field falls back to
its default when falsy; `fresh` stands for the generated
`Date.now().toString()` id. -/
def GameRow.fromJSON (fresh : String) (data : RawGame) : GameRow :=
  { id := strOr data.id fresh
    title := strOr data.title ""
    status := strOr data.status GameStatus.headI
    note := strOr data.note GameNote.headI
    difficulty := strOr data.difficulty GameDifficulty.headI }

/-- GameRow.js `set status`: keeps the previous value when invalid. -/
def GameRow.setStatus (g : GameRow) (value : String) : GameRow :=
  if isValidStatus value then { g with status := value } else g

/-- GameRow.js `set note`: keeps the previous value when invalid. -/
def GameRow.setNote (g : GameRow) (value : String) : GameRow :=
  if isValidNote value then { g with note := value } else g

/-- GameRow.js `set difficulty`: keeps the previous value when invalid. -/
def GameRow.setDifficulty (g : GameRow) (value : String) : GameRow :=
  if isValidDifficulty value then { g with difficulty := value } else g

/-- List of assignable property names in `updateProperty`. -/
def validProperties : List String :=
  ["title", "status", "note", "difficulty"]

/-- GameRow.js `updateProperty(property, value)`: returns `false` and leaves
the row untouched for an unknown property name; otherwise dispatches to the
property's setter (plain assignment for `title`) and returns `true`. -/
def GameRow.updateProperty (g : GameRow) (property value : String) :
    GameRow × Bool :=
  if validProperties.contains property then
    (if property = "title" then { g with title := value }
     else if property = "status" then g.setStatus value
     else if property = "note" then g.setNote value
     else g.setDifficulty value, true)
  else (g, false)

/-- Result of GameRow.js `validate()`. -/
structure ValidationResult where
  isValid : Bool
  errors : List String
deriving DecidableEq

/-- GameRow.js `validate()`: collects an error message per failing check. -/
def GameRow.validate (g : GameRow) : ValidationResult :=
  let errors : List String :=
    (if g.title = "" ∨ (trimJS g.title).length = 0
      then ["Título não pode estar vazio"] else []) ++
    (if isValidStatus g.status then []
      else ["Status \"" ++ g.status ++ "\" é inválido"]) ++
    (if isValidNote g.note then []
      else ["Nota \"" ++ g.note ++ "\" é inválida"]) ++
    (if isValidDifficulty g.difficulty then []
      else ["Dificuldade \"" ++ g.difficulty ++ "\" é inválida"])
  { isValid := errors.length = 0, errors := errors }

/-- GameRow.js `toJSON()`. -/
def GameRow.toJSON (g : GameRow) : RawGame :=
  { id := g.id, title := g.title, status := g.status,
    note := g.note, difficulty := g.difficulty }

/-- One tab object of the controller state (`\x7b id, name, games \x7d`). -/
structure Tab where
  id : String
  name : String
  games : List RawGame
deriving DecidableEq

/-- TableManager.js `ROWS_PER_PAGE`. -/
def ROWS_PER_PAGE : Nat := 10

/-- TableManager.js `getTotalPages()`: `1` when there is no active tab (or no
`games` array was loaded), otherwise `Math.ceil(games.length / 10)`. -/
def getTotalPages (activeTab : Option Tab) : Nat :=
  match activeTab with
  | none => 1
  | some tab => (tab.games.length + (ROWS_PER_PAGE - 1)) / ROWS_PER_PAGE

/-- TableManager.js `render()` page slice:
`sortedGames.slice((currentPage-1)*ROWS_PER_PAGE, currentPage*ROWS_PER_PAGE)`. -/
def gamesToDisplay (games : List RawGame) (currentPage : Nat) : List RawGame :=
  (games.drop ((currentPage - 1) * ROWS_PER_PAGE)).take ROWS_PER_PAGE

/-- Sortable column keys of TableManager.js (`sortableColumns`, the only
values `handleSort` is ever invoked with). -/
inductive Column
  | title
  | status
  | note
  | difficulty
deriving DecidableEq

/-- Sort direction, `'asc'` or `'desc'`. -/
inductive Direction
  | asc
  | desc
deriving DecidableEq

/-- TableManager.js `sortConfig` state. -/
structure SortConfig where
  column : Option Column
  direction : Direction
deriving DecidableEq

/-- The local `difficultyOrder` array of `sortGames`. -/
def difficultyOrder : List String :=
  ["F", "E-", "E", "E+", "D-", "D", "D+", "C-", "C", "C+",
   "B-", "B", "B+", "A-", "A", "A+", "S", "S+"]

/-- The local `statusOrder` array of `sortGames` (note the fifth entry
`"Abandonado"`, absent from the `GameStatus` enumeration). -/
def statusOrder : List String :=
  ["Não Iniciado", "Jogando", "Pausado", "Zerado", "Abandonado"]

/-- Index of the first element satisfying `p`, if any. -/
def findIdxOpt (p : α → Bool) : List α → Option Nat
  | [] => none
  | a :: l => if p a then some 0 else (findIdxOpt p l).map (· + 1)

/-- JS `Array.prototype.indexOf`: first index of `v`, or `-1` when absent. -/
def indexOfJS (l : List String) (v : String) : Int :=
  match findIdxOpt (fun x => x = v) l with
  | some i => (i : Int)
  | none => -1

/-- JS `parseInt` in base 10 on an ordinary string: skip leading whitespace,
optional sign, then the longest decimal-digit prefix; `none` models `NaN`
(no digits).  The exotic `0x` radix prefix is not taken, which is irrelevant
for the note strings this repository feeds it. -/
def parseIntJS (s : String) : Option Int :=
  let cs := (trimLeftJS s).data
  let signed : Int × List Char :=
    match cs with
    | '-' :: r => (-1, r)
    | '+' :: r => (1, r)
    | r => (1, r)
  let ds := signed.2.takeWhile Char.isDigit
  if ds = [] then none
  else some (signed.1 * (ds.foldl (fun acc c => acc * 10 + (c.toNat - 48)) 0 : Nat))

/-- The normalized `note` comparison value: `parseInt(v) || 0`. -/
def noteKey (g : RawGame) : Int :=
  match parseIntJS g.note with
  | none => 0
  | some n => n

/-- The normalized `title` comparison value: `(v || "").toLowerCase()`. -/
def titleKey (g : RawGame) : String :=
  toLowerJS g.title

/-- Lexicographic "less or equal" on character lists by code point, matching
the JS `<`/`>` comparison on strings for the repository's data. -/
def lexLeChars : List Char → List Char → Bool
  | [], _ => true
  | _ :: _, [] => false
  | a :: as, b :: bs =>
    if a.toNat < b.toNat then true
    else if b.toNat < a.toNat then false
    else lexLeChars as bs

/-- JS string comparison `a <= b` (equivalently `!(a > b)`). -/
def strLe (s t : String) : Bool :=
  lexLeChars s.data t.data

/-- The `sortGames` comparator as a boolean "may come first" relation:
`sortLe c a b` holds exactly when the JS comparator on column `c` in
ascending direction returns a non-positive number for `(a, b)`, i.e. when the
normalized value of `a` is less than or equal to that of `b`. -/
def sortLe (c : Column) (a b : RawGame) : Bool :=
  match c with
  | .title => strLe (titleKey a) (titleKey b)
  | .note => decide (noteKey a ≤ noteKey b)
  | .status =>
      decide (indexOfJS statusOrder a.status ≤ indexOfJS statusOrder b.status)
  | .difficulty =>
      decide (indexOfJS difficultyOrder a.difficulty ≤
        indexOfJS difficultyOrder b.difficulty)

/-- Stable insertion of `a` into `l`: `a` goes in front of the first element
it may precede. -/
def orderedInsert (le : α → α → Bool) (a : α) : List α → List α
  | [] => [a]
  | b :: l => if le a b then a :: b :: l else b :: orderedInsert le a l

/-- Stable sort with respect to the boolean relation `le`.  For a consistent
comparator this coincides with JS `Array.prototype.sort` (required to be
stable), whatever algorithm the engine uses. -/
def insertionSort (le : α → α → Bool) : List α → List α
  | [] => []
  | a :: l => orderedInsert le a (insertionSort le l)

/-- TableManager.js `sortGames(games)`: returns `games` unchanged when no
column is selected, otherwise the stable sort by the column comparator,
reversed comparison for descending direction. -/
def sortGames (cfg : SortConfig) (games : List RawGame) : List RawGame :=
  match cfg.column with
  | none => games
  | some c =>
    match cfg.direction with
    | .asc => insertionSort (fun a b => sortLe c a b) games
    | .desc => insertionSort (fun a b => sortLe c b a) games

/-- The view-state of TableManager.js touched by `handleSort`. -/
structure TMState where
  currentPage : Nat
  sortConfig : SortConfig
deriving DecidableEq

/-- TableManager.js `handleSort(column)`: same column flips the direction, a
new column resets it to ascending; the current page goes back to 1. -/
def handleSort (st : TMState) (column : Column) : TMState :=
  let cfg :=
    if st.sortConfig.column = some column then
      { st.sortConfig with
        direction :=
          if st.sortConfig.direction = Direction.asc then Direction.desc
          else Direction.asc }
    else { column := some column, direction := Direction.asc }
  { currentPage := 1, sortConfig := cfg }

/-- Global controller state of game_tracker.js: `tabsData` and `activeTabId`
(`none` models the JS `null`). -/
structure CtrlState where
  tabsData : List Tab
  activeTabId : Option String
deriving DecidableEq

/-- JS `Array.prototype.splice(i, 1)`: removes the element at index `i` when
it exists. -/
def spliceRemove : List α → Nat → List α
  | [], _ => []
  | _ :: l, 0 => l
  | a :: l, n + 1 => a :: spliceRemove l n

/-- game_tracker.js `handleDelete`: refuses when at most one tab remains;
otherwise removes the first tab whose id equals the modal's
`tabToDeleteId` (if any), and when the removed tab was the active one,
re-activates the first remaining tab. -/
def handleDelete (st : CtrlState) (tabToDeleteId : Option String) : CtrlState :=
  if st.tabsData.length ≤ 1 then st
  else
    match findIdxOpt (fun t => decide ((some t.id : Option String) = tabToDeleteId))
        st.tabsData with
    | none => st
    | some i =>
      { tabsData := spliceRemove st.tabsData i
        activeTabId :=
          if st.activeTabId = tabToDeleteId then
            match spliceRemove st.tabsData i with
            | [] => none
            | t :: _ => some t.id
          else st.activeTabId }

/-- game_tracker.js `addTab` callback: appends a new empty tab (with the
generated id `fresh`) and makes it active. -/
def addTab (st : CtrlState) (fresh : String) : CtrlState :=
  let newTab : Tab :=
    { id := fresh
      name := "Nova Lista " ++ toString (st.tabsData.length + 1)
      games := [] }
  { tabsData := st.tabsData ++ [newTab], activeTabId := some newTab.id }

/-- Replacement of the first element satisfying `p` (the effect of JS
`Object.assign` on the object produced by `find`). -/
def replaceFirst (p : α → Bool) (x : α) : List α → List α
  | [] => []
  | a :: l => if p a then x :: l else a :: replaceFirst p x l

/-- game_tracker.js `updateGame(gameId, property, value)` callback.  The
result is `none` when no tab matches `activeTabId` (the JS code would throw
reading `tab.games`); otherwise `some (newState, uiUpdated)` where
`uiUpdated` records whether `updateUI` ran, i.e. whether the state was
persisted and re-rendered. -/
def updateGame (st : CtrlState) (fresh gameId property value : String) :
    Option (CtrlState × Bool) :=
  match st.tabsData.find? (fun t => decide ((some t.id : Option String) = st.activeTabId)) with
  | none => none
  | some tab =>
    match tab.games.find? (fun g => decide (g.id = gameId)) with
    | none => some (st, false)
    | some gameData =>
      let gameRow := GameRow.fromJSON fresh gameData
      let result := gameRow.updateProperty property value
      if result.2 then
        let newTab : Tab :=
          { tab with
            games := replaceFirst (fun g => decide (g.id = gameId))
              result.1.toJSON tab.games }
        some
          ({ st with
              tabsData := replaceFirst
                (fun t => decide ((some t.id : Option String) = st.activeTabId))
                newTab st.tabsData }, true)
      else some (st, false)

/-- Raw imported tab object: `id`/`name` as (possibly empty) strings and
`games` as `none` when the `games` field is not an array. -/
structure RawTab where
  id : String
  name : String
  games : Option (List RawGame)
deriving DecidableEq

/-- Parsed imported JSON document: either not an array at all, or an array of
raw tab objects. -/
inductive ImportDoc
  | notArray
  | arr (tabs : List RawTab)
deriving DecidableEq

/-- Per-tab part of the import shape check:
`t.id && t.name && Array.isArray(t.games)`. -/
def shapeOkTab (t : RawTab) : Bool :=
  (!(t.id = "" : Bool)) && (!(t.name = "" : Bool)) && t.games.isSome

/-- Shape validation of game_tracker.js `importJson`:
`Array.isArray(importedData) && importedData.every(t => t.id && t.name && Array.isArray(t.games))`. -/
def shapeValid : ImportDoc → Bool
  | .notArray => false
  | .arr tabs => tabs.all shapeOkTab

/-- Result of `importJson`: the controller state afterwards, whether the
document was adopted (`success = false` means the structural-error alert),
and the emitted per-game diagnostics `(title, validation errors)` for each
incoming game whose `validate()` failed. -/
structure ImportResult where
  state : CtrlState
  success : Bool
  diagnostics : List (String × List String)
deriving DecidableEq

/-- Round-trip of one imported game through the model
(`GameRow.fromJSON` → `validate()` → `toJSON`), together with the warning
`console.warn` would emit when validation fails. -/
def importGame (fresh : String) (gameData : RawGame) :
    RawGame × List (String × List String) :=
  let gameRow := GameRow.fromJSON fresh gameData
  let validation := gameRow.validate
  (gameRow.toJSON,
   if validation.isValid then [] else [(gameData.title, validation.errors)])

/-- game_tracker.js `importJson` (after a successful JSON parse and user
confirmation): on shape failure the state is untouched and a structural
error is reported; on shape success every game is normalized through the
model, the whole `tabsData` is replaced, and the first imported tab becomes
active (`null` when the document is an empty array). -/
def importJson (st : CtrlState) (fresh : String) (doc : ImportDoc) :
    ImportResult :=
  match doc with
  | .notArray => { state := st, success := false, diagnostics := [] }
  | .arr tabs =>
    if tabs.all shapeOkTab then
      let validatedData : List Tab := tabs.map (fun t =>
        { id := t.id
          name := t.name
          games := (t.games.getD []).map (fun gd => (importGame fresh gd).1) })
      let diags := (tabs.map (fun t =>
        ((t.games.getD []).map (fun gd => (importGame fresh gd).2)).flatten)).flatten
      let newActive : Option String :=
        match validatedData with
        | [] => none
        | t :: _ => some t.id
      { state := { tabsData := validatedData, activeTabId := newActive }
        success := true
        diagnostics := diags }
    else { state := st, success := false, diagnostics := [] }

/-- Boolean form of the active-reference invariant: some tab of the
collection carries the active id. -/
def activeExists (st : CtrlState) : Bool :=
  st.tabsData.any (fun t => decide ((some t.id : Option String) = st.activeTabId))

/-- Concrete record used by several concrete evaluations below. -/
def r0 : GameRow :=
  { id := "1", title := "Zelda", status := "Não Iniciado", note := "0",
    difficulty := "F" }

/-- Concrete raw game with the out-of-domain status `"Unknown"`. -/
def g0 : RawGame :=
  { id := "g1", title := "Zelda", status := "Unknown", note := "5",
    difficulty := "F" }

/-- Concrete shape-valid one-tab import document containing `g0`. -/
def doc0 : ImportDoc :=
  .arr [{ id := "t1", name := "Lista", games := some [g0] }]

/-- Concrete pre-import controller state with a single tab. -/
def st0 : CtrlState :=
  { tabsData := [{ id := "old", name := "Minha Lista", games := [] }]
    activeTabId := some "old" }

/-- Concrete game with the status `"Abandonado"` (in `statusOrder` but not in
`GameStatus`). -/
def gA : RawGame :=
  { id := "a", title := "A", status := "Abandonado", note := "0",
    difficulty := "F" }

/-- Concrete game with the in-enumeration status `"Zerado"`. -/
def gZ : RawGame :=
  { id := "z", title := "Z", status := "Zerado", note := "0",
    difficulty := "F" }

/-- Concrete tab with an empty games array. -/
def emptyTab : Tab :=
  { id := "t", name := "n", games := [] }

/-- Concrete tab holding one serialized game with id `"g1"`. -/
def tab1 : Tab :=
  { id := "t1", name := "Lista 1",
    games := [{ id := "g1", title := "Mario", status := "Zerado", note := "3",
                difficulty := "F" }] }

/-- Concrete second tab with no games. -/
def tab2 : Tab :=
  { id := "t2", name := "Lista 2", games := [] }

/-- Concrete controller state with two tabs, the first one active. -/
def st2 : CtrlState :=
  { tabsData := [tab1, tab2], activeTabId := some "t1" }

/-
Helper lemmas (shared between several claims).
-/

/-- Falling back to the empty default is the identity. -/
theorem strOr_empty {v : String} : strOr v "" = v := by
  unfold strOr
  split
  · simp_all
  · rfl

/-- Falling back to a non-empty default yields a non-empty string. -/
theorem strOr_ne_empty {v d : String} (h : d ≠ "") : strOr v d ≠ "" := by
  unfold strOr
  split
  · exact h
  · assumption

/-- Applying the fallback twice is the same as applying it once, whenever the
first default is non-empty. -/
theorem strOr_strOr {v d e : String} (h : d ≠ "") :
    strOr (strOr v d) e = strOr v d := by
  unfold strOr
  by_cases hv : v = ""
  · simp [hv, h]
  · simp [hv]

/-- `List.contains` agrees with membership for strings. -/
theorem contains_eq_true_iff {l : List String} {v : String} :
    l.contains v = true ↔ v ∈ l := by
  constructor
  · intro h
    exact List.mem_of_elem_eq_true h
  · intro h
    exact List.elem_eq_true_of_mem h

/-- `findIdxOpt` finds nothing exactly when no element satisfies `p`. -/
theorem findIdxOpt_eq_none_iff {p : α → Bool} {l : List α} :
    findIdxOpt p l = none ↔ ∀ x ∈ l, p x = false := by
  induction l with
  | nil => simp [findIdxOpt]
  | cons a l ih =>
    by_cases h : p a = true
    · simp [findIdxOpt, h]
    · simp only [Bool.not_eq_true] at h
      simp [findIdxOpt, h, ih]

/-- An index found by `findIdxOpt` is a valid index. -/
theorem findIdxOpt_lt_length {p : α → Bool} {l : List α} {i : Nat}
    (h : findIdxOpt p l = some i) : i < l.length := by
  induction l generalizing i with
  | nil => simp [findIdxOpt] at h
  | cons a l ih =>
    by_cases hp : p a = true
    · simp [findIdxOpt, hp] at h
      simp only [List.length_cons]
      omega
    · simp only [Bool.not_eq_true] at hp
      simp [findIdxOpt, hp] at h
      obtain ⟨j, hj, rfl⟩ := h
      have := ih hj
      simp only [List.length_cons]
      omega

/-- Removing a valid index shortens the list by exactly one. -/
theorem spliceRemove_length {l : List α} {i : Nat} (h : i < l.length) :
    (spliceRemove l i).length = l.length - 1 := by
  induction l generalizing i with
  | nil => simp at h
  | cons a l ih =>
    cases i with
    | zero => simp [spliceRemove]
    | succ n =>
      simp only [List.length_cons] at h
      have hn : n < l.length := by omega
      have hlen := ih hn
      show (a :: spliceRemove l n).length = (a :: l).length - 1
      simp only [List.length_cons, hlen]
      omega

/-- An element that does not satisfy the search predicate survives the
removal of the found index. -/
theorem mem_spliceRemove {p : α → Bool} {l : List α} {i : Nat} {t : α}
    (hfind : findIdxOpt p l = some i) (hp : p t = false) (ht : t ∈ l) :
    t ∈ spliceRemove l i := by
  induction l generalizing i with
  | nil => simp at ht
  | cons a l ih =>
    by_cases ha : p a = true
    · simp [findIdxOpt, ha] at hfind
      subst hfind
      simp only [spliceRemove]
      rcases List.mem_cons.mp ht with rfl | h
      · rw [ha] at hp
        exact absurd hp (by simp)
      · exact h
    · simp only [Bool.not_eq_true] at ha
      simp [findIdxOpt, ha] at hfind
      obtain ⟨j, hj, rfl⟩ := hfind
      simp only [spliceRemove]
      rcases List.mem_cons.mp ht with rfl | h
      · exact List.mem_cons_self ..
      · exact List.mem_cons_of_mem _ (ih hj h)

/-- A value absent from the array gets JS `indexOf` value `-1`. -/
theorem indexOfJS_eq_neg_one {l : List String} {v : String}
    (h : l.contains v = false) : indexOfJS l v = -1 := by
  unfold indexOfJS
  have hnone : findIdxOpt (fun x => decide (x = v)) l = none := by
    rw [findIdxOpt_eq_none_iff]
    intro x hx
    simp only [decide_eq_false_iff_not]
    rintro rfl
    rw [contains_eq_true_iff.mpr hx] at h
    cases h
  rw [hnone]

/-- A value present in the array gets a non-negative JS `indexOf` value. -/
theorem indexOfJS_nonneg {l : List String} {v : String}
    (h : l.contains v = true) : 0 ≤ indexOfJS l v := by
  unfold indexOfJS
  cases hfi : findIdxOpt (fun x => decide (x = v)) l with
  | some i => simp
  | none =>
    exfalso
    rw [findIdxOpt_eq_none_iff] at hfi
    have hv := hfi v (contains_eq_true_iff.mp h)
    simp at hv

/-- Contrapositive: a non-negative JS `indexOf` value means membership. -/
theorem contains_of_indexOfJS_nonneg {l : List String} {v : String}
    (h : 0 ≤ indexOfJS l v) : l.contains v = true := by
  by_contra hc
  simp only [Bool.not_eq_true] at hc
  rw [indexOfJS_eq_neg_one hc] at h
  omega

/-- Membership in an ordered insertion. -/
theorem mem_orderedInsert {le : α → α → Bool} {a x : α} {l : List α} :
    x ∈ orderedInsert le a l ↔ x = a ∨ x ∈ l := by
  induction l with
  | nil => simp [orderedInsert]
  | cons b l ih =>
    by_cases h : le a b = true
    · simp [orderedInsert, h]
    · simp only [Bool.not_eq_true] at h
      simp [orderedInsert, h, ih]
      tauto

/-- Ordered insertion grows the length by one. -/
theorem length_orderedInsert {le : α → α → Bool} {a : α} {l : List α} :
    (orderedInsert le a l).length = l.length + 1 := by
  induction l with
  | nil => simp [orderedInsert]
  | cons b l ih =>
    by_cases h : le a b = true
    · simp [orderedInsert, h]
    · simp only [Bool.not_eq_true] at h
      simp [orderedInsert, h, ih]

/-- The stable sort preserves the length. -/
theorem length_insertionSort {le : α → α → Bool} {l : List α} :
    (insertionSort le l).length = l.length := by
  induction l with
  | nil => rfl
  | cons a l ih => simp [insertionSort, length_orderedInsert, ih]

/-- Ordered insertion preserves pairwise sortedness for a total transitive
boolean relation. -/
theorem pairwise_orderedInsert {le : α → α → Bool}
    (total : ∀ a b, le a b = true ∨ le b a = true)
    (trans : ∀ a b c, le a b = true → le b c = true → le a c = true)
    (a : α) (l : List α) (h : List.Pairwise (fun x y => le x y = true) l) :
    List.Pairwise (fun x y => le x y = true) (orderedInsert le a l) := by
  induction l with
  | nil => simp [orderedInsert]
  | cons b l ih =>
    rw [List.pairwise_cons] at h
    obtain ⟨hb, hl⟩ := h
    by_cases hab : le a b = true
    · simp only [orderedInsert, hab, if_true]
      rw [List.pairwise_cons]
      refine ⟨?_, ?_⟩
      · intro z hz
        rcases List.mem_cons.mp hz with rfl | hz
        · exact hab
        · exact trans a b z hab (hb z hz)
      · rw [List.pairwise_cons]
        exact ⟨hb, hl⟩
    · have hba : le b a = true := (total a b).resolve_left hab
      simp only [Bool.not_eq_true] at hab
      simp only [orderedInsert, hab, Bool.false_eq_true, if_false]
      rw [List.pairwise_cons]
      refine ⟨?_, ih hl⟩
      intro z hz
      rcases mem_orderedInsert.mp hz with rfl | hz
      · exact hba
      · exact hb z hz

/-- The stable sort produces a pairwise sorted list for a total transitive
boolean relation. -/
theorem pairwise_insertionSort {le : α → α → Bool}
    (total : ∀ a b, le a b = true ∨ le b a = true)
    (trans : ∀ a b c, le a b = true → le b c = true → le a c = true)
    (l : List α) :
    List.Pairwise (fun x y => le x y = true) (insertionSort le l) := by
  induction l with
  | nil => simp [insertionSort]
  | cons a l ih => exact pairwise_orderedInsert total trans a _ ih

/-- Sorting never changes the number of records. -/
theorem length_sortGames {cfg : SortConfig} {l : List RawGame} :
    (sortGames cfg l).length = l.length := by
  unfold sortGames
  rcases cfg with ⟨col, dir⟩
  cases col with
  | none => rfl
  | some c => cases dir <;> simp [length_insertionSort]

/-- Membership form of a positive `contains` fact. -/
theorem mem_of_contains_eq_true {l : List String} {v : String}
    (h : l.contains v = true) : v ∈ l :=
  contains_eq_true_iff.mp h

/-- Membership form of a negative `contains` fact. -/
theorem not_mem_of_contains_eq_false {l : List String} {v : String}
    (h : l.contains v = false) : v ∉ l := by
  intro hm
  rw [contains_eq_true_iff.mpr hm] at h
  cases h

/-
Claim theorems.
-/

/-- C1 counterexample: the claim says a write of a value outside the
enumeration returns `false`; on the concrete record `r0`,
`updateProperty("status", "Unknown")` leaves the field unchanged but
returns `true`. -/
theorem C1_counterexample :
    GameStatus.contains "Unknown" = false ∧
    (r0.updateProperty "status" "Unknown").2 = true ∧
    (r0.updateProperty "status" "Unknown").1 = r0 := by
  refine ⟨by decide, by decide, by decide⟩

/-- C1 (amended): a write of an enumeration member to `status`/`note`/
`difficulty` succeeds and a subsequent read returns it; a write of a
non-member leaves the whole record unchanged but still returns `true` (only
the silently-rejecting setter runs; `updateProperty` reports `false` solely
for unknown field names); a write to `title` always succeeds; a write to an
unknown field name returns `false` and mutates nothing. -/
theorem C1_updateProperty_amended (g : GameRow) (field value : String) :
    (GameStatus.contains value = true →
      (g.updateProperty "status" value).1.status = value ∧
      (g.updateProperty "status" value).2 = true) ∧
    (GameStatus.contains value = false →
      (g.updateProperty "status" value).1 = g ∧
      (g.updateProperty "status" value).2 = true) ∧
    (GameNote.contains value = true →
      (g.updateProperty "note" value).1.note = value ∧
      (g.updateProperty "note" value).2 = true) ∧
    (GameNote.contains value = false →
      (g.updateProperty "note" value).1 = g ∧
      (g.updateProperty "note" value).2 = true) ∧
    (GameDifficulty.contains value = true →
      (g.updateProperty "difficulty" value).1.difficulty = value ∧
      (g.updateProperty "difficulty" value).2 = true) ∧
    (GameDifficulty.contains value = false →
      (g.updateProperty "difficulty" value).1 = g ∧
      (g.updateProperty "difficulty" value).2 = true) ∧
    ((g.updateProperty "title" value).1.title = value ∧
      (g.updateProperty "title" value).2 = true) ∧
    (validProperties.contains field = false →
      g.updateProperty field value = (g, false)) := by
  have hs : g.updateProperty "status" value = (g.setStatus value, true) := rfl
  have hn : g.updateProperty "note" value = (g.setNote value, true) := rfl
  have hd : g.updateProperty "difficulty" value = (g.setDifficulty value, true) := rfl
  have ht : g.updateProperty "title" value = ({ g with title := value }, true) := rfl
  refine ⟨?_, ?_, ?_, ?_, ?_, ?_, ?_, ?_⟩
  · intro h
    rw [hs]
    exact ⟨by simp [GameRow.setStatus, isValidStatus, mem_of_contains_eq_true h], rfl⟩
  · intro h
    rw [hs]
    exact ⟨by simp [GameRow.setStatus, isValidStatus, not_mem_of_contains_eq_false h], rfl⟩
  · intro h
    rw [hn]
    exact ⟨by simp [GameRow.setNote, isValidNote, mem_of_contains_eq_true h], rfl⟩
  · intro h
    rw [hn]
    exact ⟨by simp [GameRow.setNote, isValidNote, not_mem_of_contains_eq_false h], rfl⟩
  · intro h
    rw [hd]
    exact ⟨by simp [GameRow.setDifficulty, isValidDifficulty, mem_of_contains_eq_true h], rfl⟩
  · intro h
    rw [hd]
    exact ⟨by simp [GameRow.setDifficulty, isValidDifficulty, not_mem_of_contains_eq_false h], rfl⟩
  · rw [ht]
    exact ⟨rfl, rfl⟩
  · intro h
    simp [GameRow.updateProperty, not_mem_of_contains_eq_false h]

/-- C1 amended-claim witness at concrete inputs. -/
theorem C1_updateProperty_amended_witness :
    (r0.updateProperty "status" "Jogando").1.status = "Jogando" ∧
    (r0.updateProperty "note" "11").1 = r0 ∧
    (r0.updateProperty "note" "11").2 = true ∧
    r0.updateProperty "bogus" "x" = (r0, false) :=
  ⟨((C1_updateProperty_amended r0 "bogus" "Jogando").1 (by decide)).1,
   ((C1_updateProperty_amended r0 "bogus" "11").2.2.2.1 (by decide)).1,
   ((C1_updateProperty_amended r0 "bogus" "11").2.2.2.1 (by decide)).2,
   (C1_updateProperty_amended r0 "bogus" "x").2.2.2.2.2.2.2 (by decide)⟩

/-- C2 counterexample: for a loaded tab with zero records the code reports
`totalPages = 0`, not the claimed `max(1, ceil(0/10)) = 1`. -/
theorem C2_counterexample :
    getTotalPages (some emptyTab) ≠
      max 1 ((emptyTab.games.length + 9) / 10) := by
  decide

/-- C2 (amended): with a loaded tab, `totalPages = ceil(n/10)` with no
minimum-1 clamp (the clamp to 1 applies only when no tab is loaded), which
equals `max(1, ceil(n/10))` for `n ≥ 1`; for every valid page number the
rendered slice has length `min(10, n - (page-1)*10)` and is non-empty
whenever `n ≥ 1`. -/
theorem C2_paginate_amended (tab : Tab) (cfg : SortConfig) (p : Nat)
    (h1 : 1 ≤ p) (h2 : p ≤ getTotalPages (some tab)) :
    getTotalPages (some tab) = (tab.games.length + 9) / 10 ∧
    (1 ≤ tab.games.length →
      getTotalPages (some tab) = max 1 ((tab.games.length + 9) / 10)) ∧
    (gamesToDisplay (sortGames cfg tab.games) p).length =
      min 10 (tab.games.length - (p - 1) * 10) ∧
    (1 ≤ tab.games.length →
      0 < (gamesToDisplay (sortGames cfg tab.games) p).length) := by
  have hTP : getTotalPages (some tab) = (tab.games.length + 9) / 10 := rfl
  have hlen : (gamesToDisplay (sortGames cfg tab.games) p).length =
      min 10 (tab.games.length - (p - 1) * 10) := by
    unfold gamesToDisplay
    rw [List.length_take, List.length_drop, length_sortGames]
    rfl
  refine ⟨hTP, ?_, hlen, ?_⟩
  · intro hg
    rw [hTP]
    have hge : 1 ≤ (tab.games.length + 9) / 10 := by
      rw [Nat.le_div_iff_mul_le (by norm_num)]
      omega
    omega
  · intro hg
    rw [hTP] at h2
    have hmul : p * 10 ≤ tab.games.length + 9 :=
      (Nat.le_div_iff_mul_le (by norm_num)).mp h2
    rw [hlen]
    omega

/-- C2 amended-claim witness: one record, page 1. -/
theorem C2_paginate_amended_witness :
    getTotalPages (some tab1) = (tab1.games.length + 9) / 10 ∧
    (gamesToDisplay (sortGames { column := none, direction := .asc }
      tab1.games) 1).length = min 10 (tab1.games.length - (1 - 1) * 10) ∧
    0 < (gamesToDisplay (sortGames { column := none, direction := .asc }
      tab1.games) 1).length :=
  ⟨(C2_paginate_amended tab1 { column := none, direction := .asc } 1
      (by decide) (by decide)).1,
   (C2_paginate_amended tab1 { column := none, direction := .asc } 1
      (by decide) (by decide)).2.2.1,
   (C2_paginate_amended tab1 { column := none, direction := .asc } 1
      (by decide) (by decide)).2.2.2 (by decide)⟩

/-- C3 counterexample: importing the shape-valid document `doc0`, whose only
record carries the out-of-domain status `"Unknown"`, succeeds and adopts a
state in which that record's status is still `"Unknown"`, which is not a
member of `GameStatus` — the adopted state does not satisfy the
enumerated-field invariant. -/
theorem C3_counterexample :
    shapeValid doc0 = true ∧
    (importJson st0 "99" doc0).success = true ∧
    (importJson st0 "99" doc0).state.tabsData.map
      (fun t => t.games.map RawGame.status) = [["Unknown"]] ∧
    GameStatus.contains "Unknown" = false := by
  refine ⟨by decide, by decide, by decide, by decide⟩

/-- C3 (amended): after a shape-valid import, each adopted enumerated field
is the source value when that value is non-empty and the enumeration default
otherwise; hence the adopted state satisfies the enumerated-field invariant
exactly when every non-empty status/note/difficulty of the source document
is a member of its enumeration (out-of-domain values are preserved, with
diagnostics, rather than corrected). -/
theorem C3_import_amended (st : CtrlState) (fresh : String)
    (tabs : List RawTab)
    (hshape : shapeValid (ImportDoc.arr tabs) = true)
    (hdom : ∀ t ∈ tabs, ∀ gd ∈ t.games.getD [],
      (gd.status = "" ∨ GameStatus.contains gd.status = true) ∧
      (gd.note = "" ∨ GameNote.contains gd.note = true) ∧
      (gd.difficulty = "" ∨ GameDifficulty.contains gd.difficulty = true)) :
    ∀ t ∈ (importJson st fresh (ImportDoc.arr tabs)).state.tabsData,
      ∀ g ∈ t.games,
        GameStatus.contains g.status = true ∧
        GameNote.contains g.note = true ∧
        GameDifficulty.contains g.difficulty = true := by
  intro t ht g hg
  have hall : tabs.all shapeOkTab = true := by
    simpa [shapeValid] using hshape
  have hres : (importJson st fresh (ImportDoc.arr tabs)).state.tabsData =
      tabs.map (fun t =>
        { id := t.id, name := t.name,
          games := (t.games.getD []).map (fun gd => (importGame fresh gd).1) }) := by
    simp only [importJson, hall, if_true]
  rw [hres] at ht
  rw [List.mem_map] at ht
  obtain ⟨rt, hrt, rfl⟩ := ht
  simp only [List.mem_map] at hg
  obtain ⟨gd, hgd, rfl⟩ := hg
  have hd := hdom rt hrt gd hgd
  refine ⟨?_, ?_, ?_⟩
  · show GameStatus.contains (strOr gd.status GameStatus.headI) = true
    rcases hd.1 with h | h
    · rw [h]
      decide
    · unfold strOr
      split
      · decide
      · exact h
  · show GameNote.contains (strOr gd.note GameNote.headI) = true
    rcases hd.2.1 with h | h
    · rw [h]
      decide
    · unfold strOr
      split
      · decide
      · exact h
  · show GameDifficulty.contains (strOr gd.difficulty GameDifficulty.headI) = true
    rcases hd.2.2 with h | h
    · rw [h]
      decide
    · unfold strOr
      split
      · decide
      · exact h

/-- C3 amended-claim witness: an in-domain document imports to in-domain
fields. -/
theorem C3_import_amended_witness :
    GameStatus.contains "Jogando" = true ∧
    GameNote.contains "7" = true ∧
    GameDifficulty.contains "S" = true :=
  C3_import_amended st0 "99"
    [{ id := "t9", name := "N",
       games := some [{ id := "g9", title := "T", status := "Jogando",
                        note := "7", difficulty := "S" }] }]
    (by decide) (by decide)
    { id := "t9", name := "N",
      games := [{ id := "g9", title := "T", status := "Jogando",
                  note := "7", difficulty := "S" }] }
    (by decide)
    { id := "g9", title := "T", status := "Jogando", note := "7",
      difficulty := "S" }
    (by decide)

/-- C4: importing the document whose single record has status `"Unknown"`
succeeds, preserves the out-of-domain status in the adopted state, activates
the imported group, and emits the diagnostic that the status is invalid. -/
theorem C4_import_unknown_status :
    (importJson st0 "99" doc0).success = true ∧
    (importJson st0 "99" doc0).state.tabsData.map
      (fun t => t.games.map RawGame.status) = [["Unknown"]] ∧
    (importJson st0 "99" doc0).state.activeTabId = some "t1" ∧
    (importJson st0 "99" doc0).diagnostics =
      [("Zelda", ["Status \"Unknown\" é inválido"])] := by
  refine ⟨by decide, by decide, by decide, by decide⟩

/-- C5 counterexample: `"Abandonado"` is not a member of the `GameStatus`
enumeration, yet the status comparator ranks it 4 (not -1), so ascending
sort places it after the defined value `"Zerado"` instead of before all
defined values. -/
theorem C5_counterexample :
    GameStatus.contains "Abandonado" = false ∧
    gA.status = "Abandonado" ∧
    gZ.status = "Zerado" ∧
    GameStatus.contains "Zerado" = true ∧
    indexOfJS statusOrder "Abandonado" = 4 ∧
    sortGames { column := some .status, direction := .asc } [gA, gZ] =
      [gZ, gA] := by
  refine ⟨by decide, by decide, by decide, by decide, by decide, by decide⟩

/-- C5 (amended): sorting by status ranks by index in the comparator's own
5-value `statusOrder` (the `GameStatus` enumeration extended with
`"Abandonado"`), not by the 4-value `GameStatus`; sorting by difficulty
ranks by `difficultyOrder`, which does equal the `GameDifficulty`
enumeration.  Values absent from the respective order array rank -1, and an
ascending sort places every absent-from-the-order value before every value
present in it. -/
theorem C5_sort_rank_amended (l : List RawGame) :
    (∀ s, statusOrder.contains s = false → indexOfJS statusOrder s = -1) ∧
    (∀ s, GameDifficulty.contains s = false →
      indexOfJS difficultyOrder s = -1) ∧
    statusOrder = GameStatus ++ ["Abandonado"] ∧
    difficultyOrder = GameDifficulty ∧
    List.Pairwise
      (fun a b => statusOrder.contains a.status = true →
        statusOrder.contains b.status = true)
      (sortGames { column := some .status, direction := .asc } l) ∧
    List.Pairwise
      (fun a b => GameDifficulty.contains a.difficulty = true →
        GameDifficulty.contains b.difficulty = true)
      (sortGames { column := some .difficulty, direction := .asc } l) := by
  have hdo : difficultyOrder = GameDifficulty := by decide
  refine ⟨?_, ?_, by decide, hdo, ?_, ?_⟩
  · intro s h
    exact indexOfJS_eq_neg_one h
  · intro s h
    rw [hdo]
    exact indexOfJS_eq_neg_one h
  · have total : ∀ a b : RawGame,
        sortLe .status a b = true ∨ sortLe .status b a = true := by
      intro a b
      simp only [sortLe, decide_eq_true_eq]
      exact le_total _ _
    have htrans : ∀ a b c : RawGame, sortLe .status a b = true →
        sortLe .status b c = true → sortLe .status a c = true := by
      intro a b c
      simp only [sortLe, decide_eq_true_eq]
      exact le_trans
    have hp := pairwise_insertionSort total htrans l
    refine List.Pairwise.imp ?_ hp
    intro a b hab
    intro hca
    simp only [sortLe, decide_eq_true_eq] at hab
    exact contains_of_indexOfJS_nonneg
      (le_trans (indexOfJS_nonneg hca) hab)
  · have total : ∀ a b : RawGame,
        sortLe .difficulty a b = true ∨ sortLe .difficulty b a = true := by
      intro a b
      simp only [sortLe, decide_eq_true_eq]
      exact le_total _ _
    have htrans : ∀ a b c : RawGame, sortLe .difficulty a b = true →
        sortLe .difficulty b c = true → sortLe .difficulty a c = true := by
      intro a b c
      simp only [sortLe, decide_eq_true_eq]
      exact le_trans
    have hp := pairwise_insertionSort total htrans l
    refine List.Pairwise.imp ?_ hp
    intro a b hab
    intro hca
    simp only [sortLe, decide_eq_true_eq] at hab
    have hca2 : difficultyOrder.contains a.difficulty = true := by
      rw [hdo]
      exact hca
    have hres := contains_of_indexOfJS_nonneg
      (le_trans (indexOfJS_nonneg hca2) hab)
    rw [hdo] at hres
    exact hres

/-- C5 amended-claim witness: concrete rank and sortedness facts. -/
theorem C5_sort_rank_amended_witness :
    indexOfJS statusOrder "Nada" = -1 ∧
    List.Pairwise
      (fun a b => statusOrder.contains a.status = true →
        statusOrder.contains b.status = true)
      (sortGames { column := some .status, direction := .asc } [gA, gZ]) :=
  ⟨(C5_sort_rank_amended [gA, gZ]).1 "Nada" (by decide),
   (C5_sort_rank_amended [gA, gZ]).2.2.2.2.1⟩

/-- C6 counterexample: `importAll` is a controller operation, and importing
the shape-valid empty document from a one-group state succeeds and leaves
the collection with zero groups and a null active reference, so "after
every controller operation the collection contains at least one group" is
false. -/
theorem C6_counterexample :
    st0.tabsData.length = 1 ∧
    (importJson st0 "99" (ImportDoc.arr [])).success = true ∧
    (importJson st0 "99" (ImportDoc.arr [])).state.tabsData.length = 0 ∧
    (importJson st0 "99" (ImportDoc.arr [])).state.activeTabId = none := by
  refine ⟨by decide, by decide, by decide, by decide⟩

/-- C6 (amended): deleting the sole remaining group is rejected with no
state change; group deletion and group addition preserve a non-empty
collection (import preserves it only for non-empty documents); deletion
preserves the active-reference-exists invariant; and when the deleted group
was the active one, the active reference is reassigned to the first
remaining group. -/
theorem C6_delete_amended (st : CtrlState) (delId : Option String)
    (fresh : String) (tabs : List RawTab) (i : Nat) :
    (st.tabsData.length = 1 → handleDelete st delId = st) ∧
    (1 ≤ st.tabsData.length → 1 ≤ (handleDelete st delId).tabsData.length) ∧
    (1 ≤ (addTab st fresh).tabsData.length) ∧
    (1 ≤ st.tabsData.length → tabs ≠ [] →
      1 ≤ (importJson st fresh (ImportDoc.arr tabs)).state.tabsData.length) ∧
    (activeExists st = true → activeExists (handleDelete st delId) = true) ∧
    (2 ≤ st.tabsData.length → st.activeTabId = delId →
      findIdxOpt (fun t => decide ((some t.id : Option String) = delId))
        st.tabsData = some i →
      ∃ t ts, (handleDelete st delId).tabsData = t :: ts ∧
        (handleDelete st delId).activeTabId = some t.id) := by
  refine ⟨?_, ?_, ?_, ?_, ?_, ?_⟩
  · intro h
    unfold handleDelete
    rw [if_pos (by omega)]
  · intro h
    unfold handleDelete
    split
    · exact h
    · rename_i hgt
      split
      · exact h
      · rename_i j hfi
        have hj := findIdxOpt_lt_length hfi
        have hlen := spliceRemove_length hj
        simp only
        omega
  · unfold addTab
    simp
  · intro h htabs
    unfold importJson
    by_cases hall : tabs.all shapeOkTab = true
    · simp only [hall, if_true]
      cases tabs with
      | nil => exact absurd rfl htabs
      | cons t ts => simp
    · simp only [Bool.not_eq_true] at hall
      simp only [hall, Bool.false_eq_true, if_false]
      exact h
  · intro h
    unfold handleDelete
    split
    · exact h
    · rename_i hgt
      split
      · exact h
      · rename_i j hfi
        have hj := findIdxOpt_lt_length hfi
        have hlen := spliceRemove_length hj
        by_cases had : st.activeTabId = delId
        · rw [if_pos had]
          cases hsp : spliceRemove st.tabsData j with
          | nil =>
            exfalso
            rw [hsp] at hlen
            simp at hlen
            omega
          | cons t ts =>
            unfold activeExists
            simp
        · rw [if_neg had]
          unfold activeExists at h ⊢
          simp only [List.any_eq_true] at h ⊢
          obtain ⟨t, ht, hta⟩ := h
          simp only [decide_eq_true_eq] at hta
          refine ⟨t, ?_, by simp [hta]⟩
          apply mem_spliceRemove hfi ?_ ht
          simp only [decide_eq_false_iff_not]
          intro heq
          apply had
          rw [← hta]
          exact heq
  · intro h2 had hfi
    unfold handleDelete
    rw [if_neg (by omega), hfi]
    have hj := findIdxOpt_lt_length hfi
    have hlen := spliceRemove_length hj
    cases hsp : spliceRemove st.tabsData i with
    | nil =>
      exfalso
      rw [hsp] at hlen
      simp at hlen
      omega
    | cons t ts =>
      refine ⟨t, ts, by simp [hsp], ?_⟩
      simp only [hsp, if_pos had]

/-- C6 amended-claim witness at concrete states. -/
theorem C6_delete_amended_witness :
    handleDelete { tabsData := [emptyTab], activeTabId := some "t" }
        (some "t") =
      { tabsData := [emptyTab], activeTabId := some "t" } ∧
    1 ≤ (handleDelete st2 (some "t1")).tabsData.length ∧
    activeExists (handleDelete st2 (some "t1")) = true ∧
    (∃ t ts, (handleDelete st2 (some "t1")).tabsData = t :: ts ∧
      (handleDelete st2 (some "t1")).activeTabId = some t.id) :=
  ⟨(C6_delete_amended { tabsData := [emptyTab], activeTabId := some "t" }
      (some "t") "x" [] 0).1 (by decide),
   (C6_delete_amended st2 (some "t1") "x" [] 0).2.1 (by decide),
   (C6_delete_amended st2 (some "t1") "x" [] 0).2.2.2.2.1 (by decide),
   (C6_delete_amended st2 (some "t1") "x" [] 0).2.2.2.2.2
     (by decide) (by decide) (by decide)⟩

/-- C7: when the imported document fails the shape check, `importJson`
reports a structural error and returns a result whose state is the whole
pre-call controller state unchanged (groups, records and active-group
reference). -/
theorem C7_import_shape_error (st : CtrlState) (fresh : String)
    (doc : ImportDoc) (h : shapeValid doc = false) :
    (importJson st fresh doc) =
      { state := st, success := false, diagnostics := [] } := by
  cases doc with
  | notArray => rfl
  | arr tabs =>
    have hall : tabs.all shapeOkTab = false := by
      simpa [shapeValid] using h
    unfold importJson
    simp [hall]

/-- C7 witness: importing a non-array document leaves the state intact. -/
theorem C7_import_shape_error_witness :
    (importJson st0 "99" ImportDoc.notArray) =
      { state := st0, success := false, diagnostics := [] } :=
  C7_import_shape_error st0 "99" ImportDoc.notArray (by decide)

/-- C8: `serialize ∘ fromRaw` is idempotent — re-parsing and re-serializing
an already round-tripped record changes nothing, for any raw record and any
non-empty generated id (the generated `Date.now().toString()` id is never
empty). -/
theorem C8_serialize_fromRaw_idempotent (x : RawGame) (fresh1 fresh2 : String)
    (h : fresh1 ≠ "") :
    (GameRow.fromJSON fresh2 ((GameRow.fromJSON fresh1 x).toJSON)).toJSON =
      (GameRow.fromJSON fresh1 x).toJSON := by
  unfold GameRow.fromJSON GameRow.toJSON
  simp only [RawGame.mk.injEq]
  refine ⟨strOr_strOr h, ?_, ?_, ?_, ?_⟩
  · rw [strOr_empty, strOr_empty]
  · exact strOr_strOr (by decide)
  · exact strOr_strOr (by decide)
  · exact strOr_strOr (by decide)

/-- C8 witness at a fully-defaulted raw record. -/
theorem C8_serialize_fromRaw_idempotent_witness :
    (GameRow.fromJSON "456"
      ((GameRow.fromJSON "123"
        { id := "", title := "", status := "", note := "",
          difficulty := "" }).toJSON)).toJSON =
      (GameRow.fromJSON "123"
        { id := "", title := "", status := "", note := "",
          difficulty := "" }).toJSON :=
  C8_serialize_fromRaw_idempotent
    { id := "", title := "", status := "", note := "", difficulty := "" }
    "123" "456" (by decide)

/-- C9: starting from an ascending sort on a column, toggling that same
column twice restores the ascending direction and the sorted order is
identical to the pre-toggle ascending order, for every record list. -/
theorem C9_sort_toggle_twice (st : TMState) (c : Column)
    (games : List RawGame)
    (hc : st.sortConfig.column = some c)
    (hd : st.sortConfig.direction = Direction.asc) :
    (handleSort (handleSort st c) c).sortConfig.direction = Direction.asc ∧
    sortGames (handleSort (handleSort st c) c).sortConfig games =
      sortGames st.sortConfig games := by
  have hcfg : st.sortConfig = { column := some c, direction := Direction.asc } := by
    rcases hcf : st.sortConfig with ⟨col, dir⟩
    rw [hcf] at hc hd
    simp only at hc hd
    rw [hc, hd]
  have h2 : (handleSort (handleSort st c) c).sortConfig = st.sortConfig := by
    unfold handleSort
    rw [hcfg]
    simp
  rw [h2]
  exact ⟨by rw [hcfg], rfl⟩

/-- C9 witness: toggling status twice from ascending restores the order on a
concrete list. -/
theorem C9_sort_toggle_twice_witness :
    (handleSort (handleSort
      { currentPage := 3,
        sortConfig := { column := some Column.status,
                        direction := Direction.asc } }
      Column.status) Column.status).sortConfig.direction = Direction.asc ∧
    sortGames (handleSort (handleSort
      { currentPage := 3,
        sortConfig := { column := some Column.status,
                        direction := Direction.asc } }
      Column.status) Column.status).sortConfig [gA, gZ] =
      sortGames { column := some Column.status,
                  direction := Direction.asc } [gA, gZ] :=
  C9_sort_toggle_twice
    { currentPage := 3,
      sortConfig := { column := some Column.status,
                      direction := Direction.asc } }
    Column.status [gA, gZ] (by decide) (by decide)

/-- C10: when the active tab exists but no game in it carries the requested
id, `updateGame` returns the state unchanged with the `updateUI` flag
false — nothing is modified, persisted or re-rendered. -/
theorem C10_updateGame_missing_noop (st : CtrlState)
    (fresh gameId property value : String) (tab : Tab)
    (hactive : st.tabsData.find?
      (fun t => decide ((some t.id : Option String) = st.activeTabId)) =
        some tab)
    (hmiss : tab.games.find? (fun g => decide (g.id = gameId)) = none) :
    updateGame st fresh gameId property value = some (st, false) := by
  unfold updateGame
  simp only [hactive, hmiss]

/-- C10 witness: updating a game id absent from the active tab of `st2` is a
silent no-op. -/
theorem C10_updateGame_missing_noop_witness :
    updateGame st2 "99" "g2" "title" "X" = some (st2, false) :=
  C10_updateGame_missing_noop st2 "99" "g2" "title" "X" tab1
    (by decide) (by decide)

end GameTracker
